import Mathlib

/-!
Shallow embedding of the end-to-end test harness in tests-e2e/:
the database fixture operations of fixtures_data.py (create_user,
create_shop, create_product), the per-test database reset
(clean_databases in conftest.py), the readiness probes
(_check_config_server, _check_gateway, _check_eureka, _check_service
together with their tenacity retry policies), and the session
bring-up hook pytest_configure.

Each relational store is modelled as an association list from table
name to the list of its rows, plus a generated-identifier counter.
A psycopg2 connection is a committed store, a pending
(in-transaction) store, and an aborted-transaction flag: execute
acts on the pending store, commit publishes it, rollback discards
it, and an error puts the connection into the aborted state until
the next rollback or commit, as PostgreSQL does (a commit issued on
an aborted transaction acts as a rollback).  External database
failures other than a missing table (which the store itself
determines) are injected through a fault oracle mapping statements
to an optional error message.

TRUNCATE ... CASCADE on a table that exists always succeeds and
empties that table; within one store a cascade can only empty
additional referencing tables, and since every table of the
truncation plan is itself truncated directly, the cascade is not
modelled separately.

The tenacity decorator retry(stop=stop_after_delay(d), wait=wait_fixed(5))
is modelled as fuel-based polling with attempts at times 0, 5, 10, ...:
after a failed attempt at time t the poller stops (re-raising the
failure) when d <= t and otherwise sleeps 5 seconds and retries.
Every raised exception is retried; tenacity is given no retry
predicate in the source, so it does not distinguish kinds of failure.

All subprocess.run invocations of docker-compose in pytest_configure
pass check=False explicitly or leave check at its default False, and
the captured result is never inspected, so the success of the
compose commands has no effect on control flow; the Env record keeps
those outcomes as fields to make this explicit.
-/

namespace E2EHarness

/-- A database row: the list of its column values. -/
abbrev Row := List String

/-- Association-list lookup by key, first match wins. -/
def assocLookup {β : Type} : List (String × β) → String → Option β
  | [], _ => none
  | (k, v) :: rest, key => if k = key then some v else assocLookup rest key

/-- Association-list update of the first matching key; leaves the list
unchanged when the key is absent. -/
def assocSet {β : Type} : List (String × β) → String → β → List (String × β)
  | [], _, _ => []
  | (k, v) :: rest, key, w =>
    if k = key then (k, w) :: rest else (k, v) :: assocSet rest key w

/-- One relational store: its tables and the next generated identifier
used for RETURNING id inserts. -/
structure Store where
  tables : List (String × List Row)
  nextId : Nat
deriving DecidableEq

/-- The SQL statements issued by the harness. -/
inductive Stmt where
  | insert (table : String) (row : Row)
  | insertReturning (table : String) (row : Row)
  | truncate (table : String)
deriving DecidableEq

/-- Database errors: psycopg2.errors.UndefinedTable versus any other
database exception. -/
inductive DBError where
  | undefinedTable (table : String)
  | other (msg : String)
deriving DecidableEq

/-- External failures injected per statement: none means the statement
behaves according to the store, some msg means the database raises an
error with that message. -/
def FaultOracle : Type := Stmt → Option String

/-- The oracle under which no external failure occurs. -/
def noFault : FaultOracle := fun _ => none

/-- Execute one statement against a store.  A missing table raises
UndefinedTable; an injected fault raises a generic database error. -/
def execStmt (fault : FaultOracle) (s : Store) (q : Stmt) :
    Except DBError (Store × Option Nat) :=
  match fault q with
  | some msg => .error (.other msg)
  | none =>
    match q with
    | .insert t row =>
      match assocLookup s.tables t with
      | none => .error (.undefinedTable t)
      | some rows => .ok ({ s with tables := assocSet s.tables t (rows ++ [row]) }, none)
    | .insertReturning t row =>
      match assocLookup s.tables t with
      | none => .error (.undefinedTable t)
      | some rows =>
        .ok (⟨assocSet s.tables t (rows ++ [toString s.nextId :: row]), s.nextId + 1⟩,
             some s.nextId)
    | .truncate t =>
      match assocLookup s.tables t with
      | none => .error (.undefinedTable t)
      | some _ => .ok ({ s with tables := assocSet s.tables t [] }, none)

/-- A psycopg2 connection: last committed store, pending in-transaction
store, and the aborted-transaction flag. -/
structure Conn where
  committed : Store
  pending : Store
  failed : Bool
deriving DecidableEq

/-- cursor.execute: acts on the pending store; any error aborts the
current transaction until the next rollback or commit. -/
def Conn.exec (fault : FaultOracle) (c : Conn) (q : Stmt) :
    Conn × Except DBError (Option Nat) :=
  if c.failed then (c, .error (.other "current transaction is aborted"))
  else
    match execStmt fault c.pending q with
    | .ok (s, r) => ({ c with pending := s }, .ok r)
    | .error e => ({ c with failed := true }, .error e)

/-- connection.commit: publishes the pending store; on an aborted
transaction PostgreSQL turns COMMIT into a rollback. -/
def Conn.commit (c : Conn) : Conn :=
  if c.failed then ⟨c.committed, c.committed, false⟩ else ⟨c.pending, c.pending, false⟩

/-- connection.rollback: discards the pending store and clears the
aborted flag. -/
def Conn.rollback (c : Conn) : Conn := ⟨c.committed, c.committed, false⟩

/-- A connection with no transaction in progress: pending equals
committed and the aborted flag is clear. -/
def Conn.fresh (c : Conn) : Prop := c.pending = c.committed ∧ c.failed = false

/-- A table that either does not exist in the store or has zero rows. -/
def emptyOrAbsent (s : Store) (t : String) : Prop :=
  assocLookup s.tables t = none ∨ assocLookup s.tables t = some []

instance (s : Store) (t : String) : Decidable (emptyOrAbsent s t) := by
  unfold emptyOrAbsent; infer_instance

/-! ## Fixture data loader (fixtures_data.py) -/

/-- The non-key column values of the INSERT INTO users statement of
create_user. -/
def userRow (username email : String) : Row :=
  [username, email, "$2a$10$e2ehashedpassword", "Test", "User"]

/-- The role-insertion loop of create_user: one INSERT INTO user_roles
per role; an UndefinedTable error is caught, the transaction is rolled
back and the loop breaks; any other error propagates to the outer
handler of create_user. -/
def roleLoop (fault : FaultOracle) (user_id : Nat) :
    Conn → List String → Conn × Option DBError
  | c, [] => (c, none)
  | c, role :: rest =>
    match c.exec fault (.insert "user_roles" [toString user_id, role]) with
    | (c1, .ok _) => roleLoop fault user_id c1 rest
    | (c1, .error (.undefinedTable _)) => (c1.rollback, none)
    | (c1, .error e) => (c1, some e)

/-- create_user of fixtures_data.py: insert the user row RETURNING id,
run the role loop, commit and return the id; any exception reaching the
outer handler rolls the transaction back and is re-raised. -/
def create_user (fault : FaultOracle) (conn : Conn) (username email : String)
    (roles : List String) : Conn × Except DBError Nat :=
  match conn.exec fault (.insertReturning "users" (userRow username email)) with
  | (c1, .error e) => (c1.rollback, .error e)
  | (c1, .ok r) =>
    match roleLoop fault (r.getD 0) c1 roles with
    | (c2, some e) => (c2.rollback, .error e)
    | (c2, none) => (c2.commit, .ok (r.getD 0))

/-- The non-key column values of the INSERT INTO shops statement of
create_shop. -/
def shopRow (name : String) (seller_id : Nat) : Row :=
  [name, "Test shop", "NULL", toString seller_id]

/-- create_shop of fixtures_data.py. -/
def create_shop (fault : FaultOracle) (conn : Conn) (name : String)
    (seller_id : Nat) : Conn × Except DBError Nat :=
  match conn.exec fault (.insertReturning "shops" (shopRow name seller_id)) with
  | (c1, .error e) => (c1.rollback, .error e)
  | (c1, .ok r) => (c1.commit, .ok (r.getD 0))

/-- The non-key column values of the INSERT INTO products statement of
create_product. -/
def productRow (name : String) (shop_id seller_id : Nat) (status : String) : Row :=
  [name, "Test product", "100.00", "NULL", toString shop_id, toString seller_id, status]

/-- create_product of fixtures_data.py. -/
def create_product (fault : FaultOracle) (conn : Conn) (name : String)
    (shop_id seller_id : Nat) (status : String) : Conn × Except DBError Nat :=
  match conn.exec fault (.insertReturning "products" (productRow name shop_id seller_id status)) with
  | (c1, .error e) => (c1.rollback, .error e)
  | (c1, .ok r) => (c1.commit, .ok (r.getD 0))

/-! ## State reset protocol (clean_databases in conftest.py) -/

/-- The tables of the truncation plan, children before parents, exactly
as listed in clean_databases (each executed as TRUNCATE TABLE t CASCADE). -/
def TRUNCATE_TABLES : List String :=
  ["order_items", "orders", "carts", "moderation_audit", "moderation_actions",
   "products", "shops", "user_roles", "users"]

/-- The warning printed for a non-UndefinedTable failure of one reset
statement. -/
def warnMsg (connName msg : String) : String :=
  "Warning in " ++ connName ++ ": " ++ msg

/-- The per-store loop of clean_databases: for each table, execute the
TRUNCATE and commit it individually; an UndefinedTable failure is rolled
back and skipped silently, any other failure is rolled back and logged
as a warning; the loop never aborts.  Returns the final connection, the
list of attempted statements, and the warnings printed. -/
def cleanTables (fault : FaultOracle) (connName : String) :
    Conn → List String → Conn × List Stmt × List String
  | c, [] => (c, [], [])
  | c, t :: rest =>
    match c.exec fault (.truncate t) with
    | (c1, .ok _) =>
      let out := cleanTables fault connName c1.commit rest
      (out.1, .truncate t :: out.2.1, out.2.2)
    | (c1, .error (.undefinedTable _)) =>
      let out := cleanTables fault connName c1.rollback rest
      (out.1, .truncate t :: out.2.1, out.2.2)
    | (c1, .error (.other msg)) =>
      let out := cleanTables fault connName c1.rollback rest
      (out.1, .truncate t :: out.2.1, warnMsg connName msg :: out.2.2)

/-- What one store reports after the reset: its name, the statements
attempted against it, and the warnings printed for it. -/
structure CleanReport where
  store : String
  attempted : List Stmt
  warnings : List String
deriving DecidableEq

/-- The outcome of clean_databases across the four stores. -/
structure CleanOutcome where
  db_order : Conn
  db_moderation : Conn
  db_product : Conn
  db_user : Conn
  reports : List CleanReport
deriving DecidableEq

/-- clean_databases of conftest.py: run the truncation plan against the
four stores in the order db_order, db_moderation, db_product, db_user. -/
def clean_databases (fault : FaultOracle) (o m p u : Conn) : CleanOutcome :=
  let ro := cleanTables fault "db_order" o TRUNCATE_TABLES
  let rm := cleanTables fault "db_moderation" m TRUNCATE_TABLES
  let rp := cleanTables fault "db_product" p TRUNCATE_TABLES
  let ru := cleanTables fault "db_user" u TRUNCATE_TABLES
  ⟨ro.1, rm.1, rp.1, ru.1,
   [⟨"db_order", ro.2.1, ro.2.2⟩, ⟨"db_moderation", rm.2.1, rm.2.2⟩,
    ⟨"db_product", rp.2.1, rp.2.2⟩, ⟨"db_user", ru.2.1, ru.2.2⟩]⟩

/-! ## Readiness probes (conftest.py) -/

/-- An HTTP response: status code and, when the body parses as a JSON
object, its string fields (none models a body that is not JSON). -/
structure HttpResponse where
  status_code : Nat
  body : Option (List (String × String))
deriving DecidableEq

/-- dict.get with a default, as used for the JSON status field. -/
def jsonGet (obj : List (String × String)) (key dflt : String) : String :=
  match assocLookup obj key with
  | some v => v
  | none => dflt

/-- One attempt of _check_service: a network failure raises, a 503
raises "unavailable", any other non-200 raises "returned code", a 200
whose body is not JSON raises, and a 200 with a JSON body succeeds
logging the status field (UNKNOWN when absent).  Every error branch is
an ordinary raised exception, retried by the tenacity wrapper. -/
def check_service_once (service_name service_id : String)
    (resp : Option HttpResponse) : Except String String :=
  match resp with
  | none => .error (service_name ++ ": RequestException")
  | some r =>
    if r.status_code = 503 then .error (service_name ++ " unavailable (503)")
    else if r.status_code ≠ 200 then
      .error (service_name ++ " returned " ++ toString r.status_code)
    else
      match r.body with
      | none => .error (service_name ++ ": JSONDecodeError")
      | some obj => .ok (jsonGet obj "status" "UNKNOWN")

/-- One attempt of the plain probes (_check_config_server,
_check_gateway, _check_eureka): requests raise_for_status, which raises
exactly on a 4xx or 5xx status, and a network failure raises. -/
def raiseForStatus (resp : Option HttpResponse) : Except String Unit :=
  match resp with
  | none => .error "RequestException"
  | some r =>
    if 400 ≤ r.status_code then .error ("HTTP error " ++ toString r.status_code)
    else .ok ()

/-- Whether an attempt result is a success. -/
def exceptOk {α : Type} : Except String α → Bool
  | .ok _ => true
  | .error _ => false

/-- tenacity retry(stop=stop_after_delay(deadline), wait=wait_fixed(interval)):
attempt k runs at time interval * k; after a failed attempt at time t
the poller stops re-raising the failure when deadline ≤ t, otherwise
waits and retries.  Returns the result and the time of the last
attempt.  Fuel-based; retryCall below supplies sufficient fuel. -/
def retryRun {α : Type} (deadline interval : Nat) (attempt : Nat → Except String α) :
    Nat → Nat → Except String α × Nat
  | 0, k => (.error "retry fuel exhausted", interval * k)
  | fuel + 1, k =>
    match attempt k with
    | .ok a => (.ok a, interval * k)
    | .error e =>
      if deadline ≤ interval * k then (.error e, interval * k)
      else retryRun deadline interval attempt fuel (k + 1)

/-- Run a tenacity-decorated probe from time zero. -/
def retryCall {α : Type} (deadline interval : Nat) (attempt : Nat → Except String α) :
    Except String α × Nat :=
  retryRun deadline interval attempt (deadline / interval + 1) 0

/-- _check_config_server: retry(stop_after_delay(900), wait_fixed(5)). -/
def check_config_server (responses : Nat → Option HttpResponse) :
    Except String Unit × Nat :=
  retryCall 900 5 (fun k => raiseForStatus (responses k))

/-- _check_gateway: retry(stop_after_delay(500), wait_fixed(5)). -/
def check_gateway (responses : Nat → Option HttpResponse) :
    Except String Unit × Nat :=
  retryCall 500 5 (fun k => raiseForStatus (responses k))

/-- _check_eureka: retry(stop_after_delay(500), wait_fixed(5)). -/
def check_eureka (responses : Nat → Option HttpResponse) :
    Except String Unit × Nat :=
  retryCall 500 5 (fun k => raiseForStatus (responses k))

/-- _check_service: retry(stop_after_delay(500), wait_fixed(5)) around
check_service_once, reading the health endpoint routed through the
gateway for the given service identifier. -/
def check_service (service_name service_id : String)
    (responses : Nat → Option HttpResponse) : Except String String × Nat :=
  retryCall 500 5 (fun k => check_service_once service_name service_id (responses k))

/-! ## Session bring-up (pytest_configure in conftest.py) -/

/-- The probes run during bring-up. -/
inductive ProbeEvt where
  | config
  | eureka
  | gateway
  | service (service_id : String)
deriving DecidableEq

/-- The SERVICES list of conftest.py, in source order. -/
def SERVICES : List (String × String) :=
  [("User Service", "user-service"), ("Product Service", "product-service"),
   ("Order Service", "order-service"), ("Moderation Service", "moderation-service")]

/-- The environment a session runs against: whether each docker-compose
command succeeds and whether each probe reaches success within its
deadline. -/
structure Env where
  composeDownOk : Bool
  composeUpConfigOk : Bool
  composeUpAllOk : Bool
  probeOk : ProbeEvt → Bool

/-- How pytest_configure ends: all probes passed; SystemExit(1) raised
from the except handler; or an exception propagated (the config-server
probe runs outside the try block). -/
inductive SessionOutcome where
  | ready
  | exit1
  | raisedError
deriving DecidableEq

/-- Run a list of probes in order, stopping at the first failure.
Returns the probes actually run and whether all of them succeeded. -/
def runProbes (ok : ProbeEvt → Bool) : List ProbeEvt → List ProbeEvt × Bool
  | [] => ([], true)
  | p :: rest =>
    if ok p then
      let out := runProbes ok rest
      (p :: out.1, out.2)
    else ([p], false)

/-- The probes run inside the try block, after the config server check:
Eureka, the gateway, then each service of SERVICES in order. -/
def probesAfterConfig : List ProbeEvt :=
  [.eureka, .gateway] ++ SERVICES.map (fun sv => .service sv.2)

/-- The full fixed probe order of one session bring-up. -/
def canonicalProbes : List ProbeEvt := .config :: probesAfterConfig

/-- pytest_configure: stop old containers (result ignored, check=False),
start the config server (result ignored, check=False), wait for the
config server (outside the try block, so a failure propagates), start
the full deployment (result captured but never inspected, check left at
its default False), then probe Eureka, the gateway and each service in
order inside a try block whose handler raises SystemExit(1).  The
compose command outcomes in Env have no effect on control flow, exactly
as in the source. -/
def pytest_configure (env : Env) : SessionOutcome × List ProbeEvt :=
  if env.probeOk .config = false then (.raisedError, [.config])
  else
    let out := runProbes env.probeOk probesAfterConfig
    (if out.2 then .ready else .exit1, .config :: out.1)

/-! ## Proof-auxiliary definitions: a pure view of the reset loop and
concrete inputs used by witnesses and counterexamples -/

/-- Pure view of the per-store reset loop acting on the committed store
only: cleanTables_eq_resetStore below proves that, started on a
connection with no transaction in progress, cleanTables is exactly this
function followed by republishing the store. -/
def resetStore (fault : FaultOracle) (connName : String) :
    Store → List String → Store × List Stmt × List String
  | s, [] => (s, [], [])
  | s, t :: rest =>
    match fault (.truncate t), assocLookup s.tables t with
    | some msg, _ =>
      let out := resetStore fault connName s rest
      (out.1, .truncate t :: out.2.1, warnMsg connName msg :: out.2.2)
    | none, none =>
      let out := resetStore fault connName s rest
      (out.1, .truncate t :: out.2.1, out.2.2)
    | none, some _ =>
      let out := resetStore fault connName { s with tables := assocSet s.tables t [] } rest
      (out.1, .truncate t :: out.2.1, out.2.2)

/-- A user-service store that has a users table but no user_roles
table, as in a deployment without the role concept. -/
def userStoreNoRoles : Store := ⟨[("users", [])], 1⟩

/-- A fresh connection to userStoreNoRoles. -/
def connNoRoles : Conn := ⟨userStoreNoRoles, userStoreNoRoles, false⟩

/-- A fault oracle that fails every RETURNING insert with a generic
database error. -/
def faultBoom : FaultOracle := fun q =>
  match q with
  | .insertReturning _ _ => some "boom"
  | _ => none

/-- A fault oracle that fails only the truncation of the carts table. -/
def faultCarts : FaultOracle := fun q =>
  if q = Stmt.truncate "carts" then some "deadlock detected" else none

/-- A small concrete store holding rows in three of the plan tables. -/
def storeSmall : Store :=
  ⟨[("order_items", [["1"]]), ("orders", [["1"]]), ("carts", [["1"], ["2"]])], 5⟩

/-- A fresh connection to storeSmall. -/
def connSmall : Conn := ⟨storeSmall, storeSmall, false⟩

/-- A response sequence whose first answer is a 404 and whose later
answers are healthy 200 responses. -/
def cexResponses : Nat → Option HttpResponse := fun k =>
  if k = 0 then some ⟨404, none⟩ else some ⟨200, some [("status", "UP")]⟩

/-- An environment in which every docker-compose command fails but
every probe eventually succeeds. -/
def envComposeFail : Env := ⟨false, false, false, fun _ => true⟩

/-- A response sequence that stays unreachable forever. -/
def neverUp : Nat → Option HttpResponse := fun _ => none

/-- A response sequence answering 503 twice, then healthy. -/
def witResponses : Nat → Option HttpResponse := fun k =>
  if k < 2 then some ⟨503, none⟩ else some ⟨200, some [("status", "DOWN")]⟩

/-- An environment in which everything succeeds. -/
def envAllOk : Env := ⟨true, true, true, fun _ => true⟩

/-- The reports clean_databases produces when no statement fails with a
non-UndefinedTable error. -/
def stdReports : List CleanReport :=
  [⟨"db_order", TRUNCATE_TABLES.map Stmt.truncate, []⟩,
   ⟨"db_moderation", TRUNCATE_TABLES.map Stmt.truncate, []⟩,
   ⟨"db_product", TRUNCATE_TABLES.map Stmt.truncate, []⟩,
   ⟨"db_user", TRUNCATE_TABLES.map Stmt.truncate, []⟩]

/-- What the reset guarantees one store, for any fault oracle: the
connection ends with no transaction in progress; every plan table that
exists and is not hit by an external fault ends committed with zero
rows; and a table whose truncation fails with an external fault is left
exactly as it was. -/
def storeResetSpec (fault : FaultOracle) (before after : Conn) : Prop :=
  after.fresh
  ∧ (∀ t, t ∈ TRUNCATE_TABLES → fault (Stmt.truncate t) = none →
      (assocLookup before.committed.tables t).isSome = true →
      assocLookup after.committed.tables t = some [])
  ∧ (∀ t msg, fault (Stmt.truncate t) = some msg →
      assocLookup after.committed.tables t = assocLookup before.committed.tables t)

/-! ## Association-list lemmas -/

lemma assocSet_of_none {β : Type} (l : List (String × β)) (t : String) (v : β)
    (h : assocLookup l t = none) : assocSet l t v = l := by
  induction l with
  | nil => rfl
  | cons kv rest ih =>
    obtain ⟨k, w⟩ := kv
    by_cases hk : k = t
    · simp [assocLookup, hk] at h
    · simp [assocLookup, hk] at h
      simp [assocSet, hk, ih h]

lemma assocLookup_assocSet_self {β : Type} (l : List (String × β)) (t : String)
    (v w : β) (h : assocLookup l t = some w) :
    assocLookup (assocSet l t v) t = some v := by
  induction l with
  | nil => simp [assocLookup] at h
  | cons kv rest ih =>
    obtain ⟨k, x⟩ := kv
    by_cases hk : k = t
    · simp [assocSet, assocLookup, hk]
    · simp [assocLookup, hk] at h
      simp [assocSet, assocLookup, hk, ih h]

lemma assocLookup_assocSet_ne {β : Type} (l : List (String × β)) (t u : String)
    (v : β) (h : u ≠ t) :
    assocLookup (assocSet l t v) u = assocLookup l u := by
  induction l with
  | nil => rfl
  | cons kv rest ih =>
    obtain ⟨k, x⟩ := kv
    by_cases hk : k = t
    · subst hk
      have hku : ¬ (k = u) := fun hh => h hh.symm
      simp [assocSet, assocLookup, hku]
    · by_cases hu : k = u
      · subst hu
        simp [assocSet, assocLookup, hk]
      · simp [assocSet, assocLookup, hk, hu, ih]

lemma assocSet_self {β : Type} (l : List (String × β)) (t : String) (v : β)
    (h : assocLookup l t = some v) : assocSet l t v = l := by
  induction l with
  | nil => rfl
  | cons kv rest ih =>
    obtain ⟨k, x⟩ := kv
    by_cases hk : k = t
    · simp [assocLookup, hk] at h
      simp [assocSet, hk, h]
    · simp [assocLookup, hk] at h
      simp [assocSet, hk, ih h]

lemma assocLookup_assocSet_isSome {β : Type} (l : List (String × β)) (t u : String)
    (v : β) :
    (assocLookup (assocSet l t v) u).isSome = (assocLookup l u).isSome := by
  by_cases hu : u = t
  · subst hu
    cases h : assocLookup l u with
    | none => rw [assocSet_of_none l u v h, h]
    | some w => rw [assocLookup_assocSet_self l u v w h]; rfl
  · rw [assocLookup_assocSet_ne l t u v hu]

/-! ## The reset loop refines its pure view -/

lemma cleanTables_eq_resetStore (fault : FaultOracle) (connName : String) :
    ∀ (ts : List String) (c : Conn), c.fresh →
      cleanTables fault connName c ts =
        (⟨(resetStore fault connName c.committed ts).1,
          (resetStore fault connName c.committed ts).1, false⟩,
         (resetStore fault connName c.committed ts).2) := by
  intro ts
  induction ts with
  | nil =>
    intro c hc
    obtain ⟨sc, sp, f⟩ := c
    simp only [Conn.fresh] at hc
    obtain ⟨h1, h2⟩ := hc
    subst h1; subst h2
    rfl
  | cons t rest ih =>
    intro c hc
    obtain ⟨sc, sp, f⟩ := c
    simp only [Conn.fresh] at hc
    obtain ⟨h1, h2⟩ := hc
    subst h1; subst h2
    rcases hf : fault (Stmt.truncate t) with _ | msg
    · rcases hl : assocLookup sp.tables t with _ | rows
      · simp only [cleanTables, Conn.exec, execStmt, hf, hl, Bool.false_eq_true,
          if_false, Conn.rollback]
        rw [ih ⟨sp, sp, false⟩ ⟨rfl, rfl⟩]
        simp only [resetStore, hf, hl]
      · simp only [cleanTables, Conn.exec, execStmt, hf, hl, Bool.false_eq_true,
          if_false, Conn.commit]
        rw [ih ⟨⟨assocSet sp.tables t [], sp.nextId⟩, ⟨assocSet sp.tables t [], sp.nextId⟩, false⟩
          ⟨rfl, rfl⟩]
        simp only [resetStore, hf, hl]
    · simp only [cleanTables, Conn.exec, execStmt, hf, Bool.false_eq_true,
        if_false, Conn.rollback]
      rw [ih ⟨sp, sp, false⟩ ⟨rfl, rfl⟩]
      simp only [resetStore, hf]

/-! ## Properties of the pure reset loop -/

lemma resetStore_attempted (fault : FaultOracle) (connName : String) :
    ∀ (ts : List String) (s : Store),
      (resetStore fault connName s ts).2.1 = ts.map Stmt.truncate := by
  intro ts
  induction ts with
  | nil => intro s; rfl
  | cons t rest ih =>
    intro s
    rcases hf : fault (Stmt.truncate t) with _ | msg <;>
      rcases hl : assocLookup s.tables t with _ | rows <;>
      simp [resetStore, hf, hl, ih]

lemma resetStore_warnings (fault : FaultOracle) (connName : String) :
    ∀ (ts : List String) (s : Store),
      (resetStore fault connName s ts).2.2 =
        ts.filterMap (fun t => (fault (Stmt.truncate t)).map (warnMsg connName)) := by
  intro ts
  induction ts with
  | nil => intro s; rfl
  | cons t rest ih =>
    intro s
    rcases hf : fault (Stmt.truncate t) with _ | msg <;>
      rcases hl : assocLookup s.tables t with _ | rows <;>
      simp [resetStore, hf, hl, ih, List.filterMap_cons]

lemma resetStore_isSome (fault : FaultOracle) (connName : String) :
    ∀ (ts : List String) (s : Store) (u : String),
      (assocLookup (resetStore fault connName s ts).1.tables u).isSome =
        (assocLookup s.tables u).isSome := by
  intro ts
  induction ts with
  | nil => intro s u; rfl
  | cons t rest ih =>
    intro s u
    rcases hf : fault (Stmt.truncate t) with _ | msg <;>
      rcases hl : assocLookup s.tables t with _ | rows <;>
      simp only [resetStore, hf, hl, ih]
    exact assocLookup_assocSet_isSome s.tables t u []

lemma resetStore_preserves (fault : FaultOracle) (connName : String) :
    ∀ (ts : List String) (s : Store) (u : String),
      emptyOrAbsent s u → emptyOrAbsent (resetStore fault connName s ts).1 u := by
  intro ts
  induction ts with
  | nil => intro s u h; exact h
  | cons t rest ih =>
    intro s u h
    rcases hf : fault (Stmt.truncate t) with _ | msg <;>
      rcases hl : assocLookup s.tables t with _ | rows <;>
      simp only [resetStore, hf, hl]
    · exact ih s u h
    · refine ih _ u ?_
      by_cases hu : u = t
      · subst hu
        right
        exact assocLookup_assocSet_self s.tables u [] rows hl
      · unfold emptyOrAbsent
        rw [assocLookup_assocSet_ne s.tables t u [] hu]
        exact h
    · exact ih s u h
    · exact ih s u h

lemma resetStore_empties (fault : FaultOracle) (connName : String) :
    ∀ (ts : List String) (s : Store) (u : String),
      u ∈ ts → fault (Stmt.truncate u) = none →
      emptyOrAbsent (resetStore fault connName s ts).1 u := by
  intro ts
  induction ts with
  | nil => intro s u hu; exact absurd hu (List.not_mem_nil u)
  | cons t rest ih =>
    intro s u hu hfu
    rcases List.mem_cons.mp hu with heq | hrest
    · subst heq
      rcases hl : assocLookup s.tables u with _ | rows
      · simp only [resetStore, hfu, hl]
        exact resetStore_preserves fault connName rest s u (Or.inl hl)
      · simp only [resetStore, hfu, hl]
        refine resetStore_preserves fault connName rest _ u ?_
        right
        exact assocLookup_assocSet_self s.tables u [] rows hl
    · rcases hf : fault (Stmt.truncate t) with _ | msg <;>
        rcases hl : assocLookup s.tables t with _ | rows <;>
        simp only [resetStore, hf, hl] <;>
        exact ih _ u hrest hfu

lemma resetStore_faulted (fault : FaultOracle) (connName : String) :
    ∀ (ts : List String) (s : Store) (u : String) (msg : String),
      fault (Stmt.truncate u) = some msg →
      assocLookup (resetStore fault connName s ts).1.tables u = assocLookup s.tables u := by
  intro ts
  induction ts with
  | nil => intro s u msg _; rfl
  | cons t rest ih =>
    intro s u msg hfu
    rcases hf : fault (Stmt.truncate t) with _ | msg' <;>
      rcases hl : assocLookup s.tables t with _ | rows <;>
      simp only [resetStore, hf, hl]
    · exact ih s u msg hfu
    · have hut : u ≠ t := by
        intro he
        rw [he, hf] at hfu
        exact Option.noConfusion hfu
      rw [ih _ u msg hfu, assocLookup_assocSet_ne s.tables t u [] hut]
    · exact ih s u msg hfu
    · exact ih s u msg hfu

lemma resetStore_noFault_id (connName : String) :
    ∀ (ts : List String) (s : Store),
      (∀ u, u ∈ ts → emptyOrAbsent s u) →
      resetStore noFault connName s ts = (s, ts.map Stmt.truncate, []) := by
  intro ts
  induction ts with
  | nil => intro s _; rfl
  | cons t rest ih =>
    intro s hempty
    have hf : noFault (Stmt.truncate t) = none := rfl
    rcases hl : assocLookup s.tables t with _ | rows
    · simp only [resetStore, hf, hl, ih s (fun u hu => hempty u (List.mem_cons_of_mem t hu)),
        List.map_cons]
    · have hrows : rows = [] := by
        rcases hempty t (List.mem_cons_self t rest) with habs | hemp
        · rw [habs] at hl; exact Option.noConfusion hl
        · rw [hemp] at hl; exact (Option.some.injEq _ _ ▸ hl).symm ▸ rfl
      subst hrows
      have hset : assocSet s.tables t [] = s.tables := assocSet_self s.tables t [] hl
      simp only [resetStore, hf, hl, hset]
      have : ({ s with tables := s.tables } : Store) = s := rfl
      rw [this, ih s (fun u hu => hempty u (List.mem_cons_of_mem t hu))]
      simp only [List.map_cons]

/-! ## Connection lemmas for the fixture operations -/

lemma exec_committed (fault : FaultOracle) (c : Conn) (q : Stmt) :
    ((c.exec fault q).1).committed = c.committed := by
  unfold Conn.exec
  split
  · rfl
  · split <;> rfl

lemma roleLoop_committed (fault : FaultOracle) (user_id : Nat) :
    ∀ (roles : List String) (c : Conn),
      ((roleLoop fault user_id c roles).1).committed = c.committed := by
  intro roles
  induction roles with
  | nil => intro c; rfl
  | cons role rest ih =>
    intro c
    rcases hex : c.exec fault (.insert "user_roles" [toString user_id, role]) with ⟨c1, r⟩
    have hc1 : c1.committed = c.committed := by
      have h := exec_committed fault c (.insert "user_roles" [toString user_id, role])
      rw [hex] at h
      exact h
    rcases r with e | v
    · rcases e with t | msg
      · simp only [roleLoop, hex, Conn.rollback]
        exact hc1
      · simp only [roleLoop, hex]
        exact hc1
    · simp only [roleLoop, hex]
      rw [ih c1, hc1]

/-! ## Polling lemmas -/

lemma retryRun_zero {α : Type} (d i : Nat) (a : Nat → Except String α) (k : Nat) :
    retryRun d i a 0 k = (.error "retry fuel exhausted", i * k) := rfl

lemma retryRun_succ {α : Type} (d i : Nat) (a : Nat → Except String α) (fuel k : Nat) :
    retryRun d i a (fuel + 1) k =
      match a k with
      | .ok v => (.ok v, i * k)
      | .error e =>
        if d ≤ i * k then (.error e, i * k) else retryRun d i a fuel (k + 1) := rfl

lemma retryRun_succ_ok {α : Type} {d i : Nat} {a : Nat → Except String α} {k : Nat}
    {v : α} (h : a k = .ok v) (fuel : Nat) :
    retryRun d i a (fuel + 1) k = (.ok v, i * k) := by
  rw [retryRun_succ, h]

lemma retryRun_succ_error {α : Type} {d i : Nat} {a : Nat → Except String α} {k : Nat}
    {e : String} (h : a k = .error e) (fuel : Nat) :
    retryRun d i a (fuel + 1) k =
      if d ≤ i * k then (.error e, i * k) else retryRun d i a fuel (k + 1) := by
  rw [retryRun_succ, h]

lemma retryRun_all_error_isOk {α : Type} (d : Nat) (a : Nat → Except String α)
    (ha : ∀ j, exceptOk (a j) = false) :
    ∀ (fuel k : Nat), exceptOk (retryRun d 5 a fuel k).1 = false := by
  intro fuel
  induction fuel with
  | zero => intro k; rfl
  | succ f ih =>
    intro k
    cases hak : a k with
    | ok v =>
      have h := ha k
      rw [hak] at h
      simp [exceptOk] at h
    | error e =>
      rw [retryRun_succ_error hak f]
      by_cases hdk : d ≤ 5 * k
      · rw [if_pos hdk]
        rfl
      · rw [if_neg hdk]
        exact ih (k + 1)

lemma retryRun_all_error_time {α : Type} (d : Nat) (a : Nat → Except String α)
    (ha : ∀ j, exceptOk (a j) = false) :
    ∀ (fuel k : Nat), d ≤ 5 * (k + fuel) →
      (retryRun d 5 a (fuel + 1) k).2 =
        if d ≤ 5 * k then 5 * k else 5 * ((d + 4) / 5) := by
  intro fuel
  induction fuel with
  | zero =>
    intro k hk
    cases hak : a k with
    | ok v =>
      have h := ha k
      rw [hak] at h
      simp [exceptOk] at h
    | error e =>
      have hdk : d ≤ 5 * k := by omega
      rw [retryRun_succ_error hak 0, if_pos hdk, if_pos hdk]
  | succ f ih =>
    intro k hk
    cases hak : a k with
    | ok v =>
      have h := ha k
      rw [hak] at h
      simp [exceptOk] at h
    | error e =>
      rw [retryRun_succ_error hak (f + 1)]
      by_cases hdk : d ≤ 5 * k
      · rw [if_pos hdk, if_pos hdk]
      · rw [if_neg hdk, if_neg hdk, ih (k + 1) (by omega)]
        by_cases hdk1 : d ≤ 5 * (k + 1)
        · rw [if_pos hdk1]
          have heq : (d + 4) / 5 = k + 1 := by omega
          rw [heq]
        · rw [if_neg hdk1]

lemma retryRun_first_ok {α : Type} (d : Nat) (a : Nat → Except String α) (k : Nat) (v : α)
    (hk : a k = .ok v) (hprev : ∀ j, j < k → exceptOk (a j) = false ∧ 5 * j < d) :
    ∀ (fuel k0 : Nat), k0 ≤ k → k ≤ k0 + fuel →
      retryRun d 5 a (fuel + 1) k0 = (.ok v, 5 * k) := by
  intro fuel
  induction fuel with
  | zero =>
    intro k0 h1 h2
    have he : k0 = k := by omega
    subst he
    rw [retryRun_succ_ok hk 0]
  | succ f ih =>
    intro k0 h1 h2
    by_cases he : k0 = k
    · subst he
      rw [retryRun_succ_ok hk (f + 1)]
    · have hlt : k0 < k := by omega
      obtain ⟨hofk, htime⟩ := hprev k0 hlt
      cases hak : a k0 with
      | ok w =>
        rw [hak] at hofk
        simp [exceptOk] at hofk
      | error e =>
        rw [retryRun_succ_error hak (f + 1), if_neg (by omega)]
        exact ih (k0 + 1) (by omega) (by omega)

/-! ## Probe-sequence lemmas -/

lemma runProbes_take (ok : ProbeEvt → Bool) :
    ∀ (l : List ProbeEvt), (runProbes ok l).1 = l.take (runProbes ok l).1.length := by
  intro l
  induction l with
  | nil => rfl
  | cons p rest ih =>
    by_cases hp : ok p = true
    · simp only [runProbes, hp, if_true, List.length_cons, List.take_succ_cons]
      rw [← ih]
    · simp [runProbes, hp]

lemma runProbes_dropLast (ok : ProbeEvt → Bool) :
    ∀ (l : List ProbeEvt) (p : ProbeEvt),
      p ∈ (runProbes ok l).1.dropLast → ok p = true := by
  intro l
  induction l with
  | nil => intro p hp; simp [runProbes] at hp
  | cons q rest ih =>
    intro p hp
    by_cases hq : ok q = true
    · simp only [runProbes, hq, if_true] at hp
      rcases hrest : (runProbes ok rest).1 with _ | ⟨x, xs⟩
      · rw [hrest] at hp
        simp at hp
      · rw [hrest] at hp
        rw [List.dropLast_cons₂] at hp
        rcases List.mem_cons.mp hp with he | hin
        · subst he; exact hq
        · exact ih p (hrest ▸ hin)
    · simp [runProbes, hq] at hp

lemma runProbes_all (ok : ProbeEvt → Bool) :
    ∀ (l : List ProbeEvt), (∀ p, p ∈ l → ok p = true) → runProbes ok l = (l, true) := by
  intro l
  induction l with
  | nil => intro _; rfl
  | cons q rest ih =>
    intro h
    have hq : ok q = true := h q (List.mem_cons_self q rest)
    simp only [runProbes, hq, if_true, ih (fun p hp => h p (List.mem_cons_of_mem q hp))]

lemma runProbes_flag (ok : ProbeEvt → Bool) :
    ∀ (l : List ProbeEvt), (runProbes ok l).2 = true ↔ (∀ p, p ∈ l → ok p = true) := by
  intro l
  induction l with
  | nil => simp [runProbes]
  | cons q rest ih =>
    by_cases hq : ok q = true
    · simp only [runProbes, hq, if_true]
      rw [ih]
      constructor
      · intro h p hp
        rcases List.mem_cons.mp hp with he | hin
        · subst he; exact hq
        · exact h p hin
      · intro h p hp
        exact h p (List.mem_cons_of_mem q hp)
    · rw [runProbes, if_neg hq]
      constructor
      · intro h
        exact Bool.noConfusion h
      · intro h
        exact absurd (h q (List.mem_cons_self q rest)) hq

/-! ## Assembled facts about the per-store reset -/

lemma cleanTables_attempted (fault : FaultOracle) (connName : String) (c : Conn)
    (hc : c.fresh) :
    (cleanTables fault connName c TRUNCATE_TABLES).2.1 =
      TRUNCATE_TABLES.map Stmt.truncate := by
  rw [cleanTables_eq_resetStore fault connName TRUNCATE_TABLES c hc]
  exact resetStore_attempted fault connName TRUNCATE_TABLES c.committed

lemma cleanTables_warnings (fault : FaultOracle) (connName : String) (c : Conn)
    (hc : c.fresh) :
    (cleanTables fault connName c TRUNCATE_TABLES).2.2 =
      TRUNCATE_TABLES.filterMap
        (fun t => (fault (Stmt.truncate t)).map (warnMsg connName)) := by
  rw [cleanTables_eq_resetStore fault connName TRUNCATE_TABLES c hc]
  exact resetStore_warnings fault connName TRUNCATE_TABLES c.committed

lemma cleanTables_spec (fault : FaultOracle) (connName : String) (c : Conn)
    (hc : c.fresh) :
    storeResetSpec fault c (cleanTables fault connName c TRUNCATE_TABLES).1 := by
  rw [cleanTables_eq_resetStore fault connName TRUNCATE_TABLES c hc]
  refine ⟨⟨rfl, rfl⟩, ?_, ?_⟩
  · intro t ht hft hsome
    rcases resetStore_empties fault connName TRUNCATE_TABLES c.committed t ht hft
      with habs | hfull
    · have hs := resetStore_isSome fault connName TRUNCATE_TABLES c.committed t
      rw [habs, hsome] at hs
      exact Bool.noConfusion hs
    · exact hfull
  · intro t msg hf
    exact resetStore_faulted fault connName TRUNCATE_TABLES c.committed t msg hf

lemma cleanTables_fresh (fault : FaultOracle) (connName : String) (c : Conn)
    (hc : c.fresh) : ((cleanTables fault connName c TRUNCATE_TABLES).1).fresh := by
  rw [cleanTables_eq_resetStore fault connName TRUNCATE_TABLES c hc]
  exact ⟨rfl, rfl⟩

lemma cleanTables_empties (connName : String) (c : Conn) (hc : c.fresh) :
    ∀ v, v ∈ TRUNCATE_TABLES →
      emptyOrAbsent ((cleanTables noFault connName c TRUNCATE_TABLES).1).committed v := by
  intro v hv
  rw [cleanTables_eq_resetStore noFault connName TRUNCATE_TABLES c hc]
  exact resetStore_empties noFault connName TRUNCATE_TABLES c.committed v hv rfl

lemma cleanTables_noFault_id (connName : String) (c : Conn) (hc : c.fresh)
    (hempty : ∀ v, v ∈ TRUNCATE_TABLES → emptyOrAbsent c.committed v) :
    cleanTables noFault connName c TRUNCATE_TABLES =
      (c, TRUNCATE_TABLES.map Stmt.truncate, []) := by
  rw [cleanTables_eq_resetStore noFault connName TRUNCATE_TABLES c hc,
      resetStore_noFault_id connName TRUNCATE_TABLES c.committed hempty]
  obtain ⟨sc, sp, f⟩ := c
  simp only [Conn.fresh] at hc
  obtain ⟨h1, h2⟩ := hc
  subst h1; subst h2
  rfl

lemma clean_databases_noFault_shape (o m p u : Conn)
    (ho : o.fresh) (hm : m.fresh) (hp : p.fresh) (hu : u.fresh) :
    clean_databases noFault o m p u =
      ⟨(cleanTables noFault "db_order" o TRUNCATE_TABLES).1,
       (cleanTables noFault "db_moderation" m TRUNCATE_TABLES).1,
       (cleanTables noFault "db_product" p TRUNCATE_TABLES).1,
       (cleanTables noFault "db_user" u TRUNCATE_TABLES).1,
       stdReports⟩ := by
  have wnil : ∀ connName : String,
      TRUNCATE_TABLES.filterMap
        (fun t => (noFault (Stmt.truncate t)).map (warnMsg connName)) = [] :=
    fun _ => rfl
  simp only [clean_databases]
  rw [cleanTables_attempted noFault "db_order" o ho,
      cleanTables_warnings noFault "db_order" o ho,
      cleanTables_attempted noFault "db_moderation" m hm,
      cleanTables_warnings noFault "db_moderation" m hm,
      cleanTables_attempted noFault "db_product" p hp,
      cleanTables_warnings noFault "db_product" p hp,
      cleanTables_attempted noFault "db_user" u hu,
      cleanTables_warnings noFault "db_user" u hu,
      wnil "db_order", wnil "db_moderation", wnil "db_product", wnil "db_user"]
  rfl

/-! ## Claim theorems for the reset protocol -/

/-- Claim C2: for every fault oracle and every four fresh store
connections, the reset attempts and commits each truncation statement
individually: every statement of the plan is attempted against every
store (a failing statement never aborts the run), the final connections
have no transaction in progress (each failure was rolled back), every
plan table that exists in a store and is not hit by a failure ends
committed with zero rows even when other statements fail (previously
committed truncations remain in effect), and a table whose truncation
statement fails is left exactly as it was before the reset. -/
theorem C2_reset_per_statement (fault : FaultOracle) (o m p u : Conn)
    (ho : o.fresh) (hm : m.fresh) (hp : p.fresh) (hu : u.fresh) :
    (clean_databases fault o m p u).reports.map CleanReport.attempted =
        [TRUNCATE_TABLES.map Stmt.truncate, TRUNCATE_TABLES.map Stmt.truncate,
         TRUNCATE_TABLES.map Stmt.truncate, TRUNCATE_TABLES.map Stmt.truncate]
    ∧ storeResetSpec fault o (clean_databases fault o m p u).db_order
    ∧ storeResetSpec fault m (clean_databases fault o m p u).db_moderation
    ∧ storeResetSpec fault p (clean_databases fault o m p u).db_product
    ∧ storeResetSpec fault u (clean_databases fault o m p u).db_user := by
  refine ⟨?_, ?_, ?_, ?_, ?_⟩
  · simp only [clean_databases, List.map_cons, List.map_nil]
    rw [cleanTables_attempted fault "db_order" o ho,
        cleanTables_attempted fault "db_moderation" m hm,
        cleanTables_attempted fault "db_product" p hp,
        cleanTables_attempted fault "db_user" u hu]
  · simp only [clean_databases]
    exact cleanTables_spec fault "db_order" o ho
  · simp only [clean_databases]
    exact cleanTables_spec fault "db_moderation" m hm
  · simp only [clean_databases]
    exact cleanTables_spec fault "db_product" p hp
  · simp only [clean_databases]
    exact cleanTables_spec fault "db_user" u hu

/-- Witness for C2 at a concrete input: a store holding rows in three
plan tables, with an injected failure on the carts truncation. -/
theorem C2_reset_per_statement_witness :
    (clean_databases faultCarts connSmall connSmall connSmall connSmall).reports.map
        CleanReport.attempted =
      [TRUNCATE_TABLES.map Stmt.truncate, TRUNCATE_TABLES.map Stmt.truncate,
       TRUNCATE_TABLES.map Stmt.truncate, TRUNCATE_TABLES.map Stmt.truncate]
    ∧ storeResetSpec faultCarts connSmall
        (clean_databases faultCarts connSmall connSmall connSmall connSmall).db_order
    ∧ storeResetSpec faultCarts connSmall
        (clean_databases faultCarts connSmall connSmall connSmall connSmall).db_moderation
    ∧ storeResetSpec faultCarts connSmall
        (clean_databases faultCarts connSmall connSmall connSmall connSmall).db_product
    ∧ storeResetSpec faultCarts connSmall
        (clean_databases faultCarts connSmall connSmall connSmall connSmall).db_user :=
  C2_reset_per_statement faultCarts connSmall connSmall connSmall connSmall
    ⟨rfl, rfl⟩ ⟨rfl, rfl⟩ ⟨rfl, rfl⟩ ⟨rfl, rfl⟩

/-- Claim C3: with no external faults, after the reset every table of
the truncation plan has zero rows (or does not exist) in every store,
and the reset is idempotent: running clean_databases a second time on
the resulting connections returns exactly the same outcome. -/
theorem C3_reset_empty_idempotent (o m p u : Conn)
    (ho : o.fresh) (hm : m.fresh) (hp : p.fresh) (hu : u.fresh) :
    (∀ t, t ∈ TRUNCATE_TABLES →
      emptyOrAbsent ((clean_databases noFault o m p u).db_order).committed t
      ∧ emptyOrAbsent ((clean_databases noFault o m p u).db_moderation).committed t
      ∧ emptyOrAbsent ((clean_databases noFault o m p u).db_product).committed t
      ∧ emptyOrAbsent ((clean_databases noFault o m p u).db_user).committed t)
    ∧ clean_databases noFault (clean_databases noFault o m p u).db_order
        (clean_databases noFault o m p u).db_moderation
        (clean_databases noFault o m p u).db_product
        (clean_databases noFault o m p u).db_user
      = clean_databases noFault o m p u := by
  have hshape := clean_databases_noFault_shape o m p u ho hm hp hu
  rw [hshape]
  constructor
  · intro t ht
    exact ⟨cleanTables_empties "db_order" o ho t ht,
           cleanTables_empties "db_moderation" m hm t ht,
           cleanTables_empties "db_product" p hp t ht,
           cleanTables_empties "db_user" u hu t ht⟩
  · rw [clean_databases_noFault_shape _ _ _ _
        (cleanTables_fresh noFault "db_order" o ho)
        (cleanTables_fresh noFault "db_moderation" m hm)
        (cleanTables_fresh noFault "db_product" p hp)
        (cleanTables_fresh noFault "db_user" u hu),
      cleanTables_noFault_id "db_order" _
        (cleanTables_fresh noFault "db_order" o ho)
        (cleanTables_empties "db_order" o ho),
      cleanTables_noFault_id "db_moderation" _
        (cleanTables_fresh noFault "db_moderation" m hm)
        (cleanTables_empties "db_moderation" m hm),
      cleanTables_noFault_id "db_product" _
        (cleanTables_fresh noFault "db_product" p hp)
        (cleanTables_empties "db_product" p hp),
      cleanTables_noFault_id "db_user" _
        (cleanTables_fresh noFault "db_user" u hu)
        (cleanTables_empties "db_user" u hu)]

/-- Witness for C3 at a concrete input. -/
theorem C3_reset_empty_idempotent_witness :
    (∀ t, t ∈ TRUNCATE_TABLES →
      emptyOrAbsent ((clean_databases noFault connSmall connSmall connSmall
        connNoRoles).db_order).committed t
      ∧ emptyOrAbsent ((clean_databases noFault connSmall connSmall connSmall
        connNoRoles).db_moderation).committed t
      ∧ emptyOrAbsent ((clean_databases noFault connSmall connSmall connSmall
        connNoRoles).db_product).committed t
      ∧ emptyOrAbsent ((clean_databases noFault connSmall connSmall connSmall
        connNoRoles).db_user).committed t)
    ∧ clean_databases noFault
        (clean_databases noFault connSmall connSmall connSmall connNoRoles).db_order
        (clean_databases noFault connSmall connSmall connSmall connNoRoles).db_moderation
        (clean_databases noFault connSmall connSmall connSmall connNoRoles).db_product
        (clean_databases noFault connSmall connSmall connSmall connNoRoles).db_user
      = clean_databases noFault connSmall connSmall connSmall connNoRoles :=
  C3_reset_empty_idempotent connSmall connSmall connSmall connNoRoles
    ⟨rfl, rfl⟩ ⟨rfl, rfl⟩ ⟨rfl, rfl⟩ ⟨rfl, rfl⟩

/-- Claim C10: the reset attempts the identical nine-statement
truncation plan, in the same order, against every one of the four
stores (db_order, db_moderation, db_product, db_user in that order),
and the warnings of each store are exactly the injected non-missing
table failures: a statement failing because the table is absent
contributes no warning, a statement failing for any other reason
contributes one. -/
theorem C10_truncation_plan (fault : FaultOracle) (o m p u : Conn)
    (ho : o.fresh) (hm : m.fresh) (hp : p.fresh) (hu : u.fresh) :
    (clean_databases fault o m p u).reports.map CleanReport.store =
        ["db_order", "db_moderation", "db_product", "db_user"]
    ∧ TRUNCATE_TABLES.length = 9
    ∧ (clean_databases fault o m p u).reports.map CleanReport.attempted =
        List.replicate 4 (TRUNCATE_TABLES.map Stmt.truncate)
    ∧ (∀ r, r ∈ (clean_databases fault o m p u).reports →
        r.warnings = TRUNCATE_TABLES.filterMap
          (fun t => (fault (Stmt.truncate t)).map (warnMsg r.store))) := by
  refine ⟨?_, rfl, ?_, ?_⟩
  · simp only [clean_databases, List.map_cons, List.map_nil]
  · simp only [clean_databases, List.map_cons, List.map_nil]
    rw [cleanTables_attempted fault "db_order" o ho,
        cleanTables_attempted fault "db_moderation" m hm,
        cleanTables_attempted fault "db_product" p hp,
        cleanTables_attempted fault "db_user" u hu]
    rfl
  · intro r hr
    simp only [clean_databases, List.mem_cons, List.not_mem_nil, or_false] at hr
    rcases hr with h | h | h | h <;> subst h
    · exact cleanTables_warnings fault "db_order" o ho
    · exact cleanTables_warnings fault "db_moderation" m hm
    · exact cleanTables_warnings fault "db_product" p hp
    · exact cleanTables_warnings fault "db_user" u hu

/-- Witness for C10 at a concrete input. -/
theorem C10_truncation_plan_witness :
    (clean_databases faultCarts connSmall connSmall connNoRoles connSmall).reports.map
        CleanReport.store = ["db_order", "db_moderation", "db_product", "db_user"]
    ∧ TRUNCATE_TABLES.length = 9
    ∧ (clean_databases faultCarts connSmall connSmall connNoRoles connSmall).reports.map
        CleanReport.attempted = List.replicate 4 (TRUNCATE_TABLES.map Stmt.truncate)
    ∧ (∀ r, r ∈ (clean_databases faultCarts connSmall connSmall connNoRoles
          connSmall).reports →
        r.warnings = TRUNCATE_TABLES.filterMap
          (fun t => (faultCarts (Stmt.truncate t)).map (warnMsg r.store))) :=
  C10_truncation_plan faultCarts connSmall connSmall connNoRoles connSmall
    ⟨rfl, rfl⟩ ⟨rfl, rfl⟩ ⟨rfl, rfl⟩ ⟨rfl, rfl⟩

/-! ## Claim theorems for the fixture loader -/

/-- Claim C1, evaluated at the failing input: on a store that has a
users table but no user_roles table, create_user with one role returns
the generated identifier 1, yet the committed store is unchanged and
its users table still has zero rows.  The rollback taken on the
UndefinedTable signal discards the entire transaction, including the
user row inserted at the start, so the user row is not committed,
contrary to the claim; only the returned identifier survives. -/
theorem C1_role_table_absent_eval :
    (create_user noFault connNoRoles "alice" "alice@example.com" ["USER"]).2 = .ok 1
    ∧ ((create_user noFault connNoRoles "alice" "alice@example.com" ["USER"]).1).committed
        = userStoreNoRoles
    ∧ assocLookup (((create_user noFault connNoRoles "alice"
        "alice@example.com" ["USER"]).1).committed).tables "users" = some [] :=
  ⟨rfl, rfl, rfl⟩

/-- Claim C8: whenever any of the three fixture-creation operations
returns a database error to its caller, the committed store is exactly
what it was before the call (the whole transaction was rolled back, so
no partial entity is ever left committed) and the connection ends with
no transaction in progress; the error itself is the returned value
(re-raised).  The absent-role-table signal never surfaces as an error
(create_user returns normally then), so every error result is covered. -/
theorem C8_fixture_rollback (fault : FaultOracle) (conn : Conn)
    (username email name status : String) (roles : List String)
    (shop_id seller_id : Nat) :
    (∀ c1 e, create_user fault conn username email roles = (c1, .error e) →
      c1.committed = conn.committed ∧ c1.fresh)
    ∧ (∀ c1 e, create_shop fault conn name seller_id = (c1, .error e) →
      c1.committed = conn.committed ∧ c1.fresh)
    ∧ (∀ c1 e, create_product fault conn name shop_id seller_id status = (c1, .error e) →
      c1.committed = conn.committed ∧ c1.fresh) := by
  refine ⟨?_, ?_, ?_⟩
  · intro c1 e h
    rcases hex : conn.exec fault (.insertReturning "users" (userRow username email))
      with ⟨c2, r⟩
    have hc2 : c2.committed = conn.committed := by
      have hh := exec_committed fault conn (.insertReturning "users" (userRow username email))
      rw [hex] at hh
      exact hh
    rcases r with e2 | v
    · have heq : create_user fault conn username email roles = (c2.rollback, .error e2) := by
        unfold create_user
        rw [hex]
      rw [heq] at h
      injection h with h1 h2
      subst h1
      exact ⟨hc2, rfl, rfl⟩
    · rcases hrl : roleLoop fault (v.getD 0) c2 roles with ⟨c3, w⟩
      have hc3 : c3.committed = c2.committed := by
        have hh := roleLoop_committed fault (v.getD 0) roles c2
        rw [hrl] at hh
        exact hh
      rcases w with _ | e3
      · have heq : create_user fault conn username email roles =
            (c3.commit, .ok (v.getD 0)) := by
          simp only [create_user, hex, hrl]
        rw [heq] at h
        injection h with h1 h2
        exact Except.noConfusion h2
      · have heq : create_user fault conn username email roles =
            (c3.rollback, .error e3) := by
          simp only [create_user, hex, hrl]
        rw [heq] at h
        injection h with h1 h2
        subst h1
        exact ⟨hc3.trans hc2, rfl, rfl⟩
  · intro c1 e h
    rcases hex : conn.exec fault (.insertReturning "shops" (shopRow name seller_id))
      with ⟨c2, r⟩
    have hc2 : c2.committed = conn.committed := by
      have hh := exec_committed fault conn (.insertReturning "shops" (shopRow name seller_id))
      rw [hex] at hh
      exact hh
    rcases r with e2 | v
    · have heq : create_shop fault conn name seller_id = (c2.rollback, .error e2) := by
        unfold create_shop
        rw [hex]
      rw [heq] at h
      injection h with h1 h2
      subst h1
      exact ⟨hc2, rfl, rfl⟩
    · have heq : create_shop fault conn name seller_id = (c2.commit, .ok (v.getD 0)) := by
        unfold create_shop
        rw [hex]
      rw [heq] at h
      injection h with h1 h2
      exact Except.noConfusion h2
  · intro c1 e h
    rcases hex : conn.exec fault
        (.insertReturning "products" (productRow name shop_id seller_id status))
      with ⟨c2, r⟩
    have hc2 : c2.committed = conn.committed := by
      have hh := exec_committed fault conn
        (.insertReturning "products" (productRow name shop_id seller_id status))
      rw [hex] at hh
      exact hh
    rcases r with e2 | v
    · have heq : create_product fault conn name shop_id seller_id status =
          (c2.rollback, .error e2) := by
        unfold create_product
        rw [hex]
      rw [heq] at h
      injection h with h1 h2
      subst h1
      exact ⟨hc2, rfl, rfl⟩
    · have heq : create_product fault conn name shop_id seller_id status =
          (c2.commit, .ok (v.getD 0)) := by
        unfold create_product
        rw [hex]
      rw [heq] at h
      injection h with h1 h2
      exact Except.noConfusion h2

/-- Witness for C8 at a concrete input: a fault oracle failing every
RETURNING insert with a generic error. -/
theorem C8_fixture_rollback_witness :
    ((create_user faultBoom connNoRoles "bob" "bob@example.com" ["USER"]).1.committed
        = connNoRoles.committed
      ∧ (create_user faultBoom connNoRoles "bob" "bob@example.com" ["USER"]).1.fresh)
    ∧ ((create_shop faultBoom connNoRoles "shop" 1).1.committed = connNoRoles.committed
      ∧ (create_shop faultBoom connNoRoles "shop" 1).1.fresh)
    ∧ ((create_product faultBoom connNoRoles "prod" 1 2 "PENDING").1.committed
        = connNoRoles.committed
      ∧ (create_product faultBoom connNoRoles "prod" 1 2 "PENDING").1.fresh) :=
  ⟨(C8_fixture_rollback faultBoom connNoRoles "bob" "bob@example.com" "shop" "PENDING"
      ["USER"] 1 2).1 _ (.other "boom") rfl,
   (C8_fixture_rollback faultBoom connNoRoles "bob" "bob@example.com" "shop" "PENDING"
      ["USER"] 1 2).2.1 _ (.other "boom") rfl,
   (C8_fixture_rollback faultBoom connNoRoles "bob" "bob@example.com" "prod" "PENDING"
      ["USER"] 1 2).2.2 _ (.other "boom") rfl⟩

/-! ## Claim theorems for the readiness probes -/

/-- Claim C4 counterexample: a 404 response (non-200, non-503) on the
first attempt does not terminate the through-gateway probe: it raises
the same kind of retried exception as a 503, polling continues, and the
probe succeeds on the very next attempt.  A non-200 status other than
503 is therefore a retryable condition, not a harder failure. -/
theorem C4_nonsuccess_retried_counterexample :
    check_service_once "User Service" "user-service" (some ⟨404, none⟩) =
      .error "User Service returned 404"
    ∧ check_service "User Service" "user-service" cexResponses = (.ok "UP", 5) :=
  ⟨rfl, rfl⟩

/-- Claim C4 amended: the through-gateway probe treats 503 as
retryable, a 200 whose body parses as JSON as terminal success, and any
other non-200 equally as a retryable condition: the raised exception
differs only in its message, and the fixed-interval poller retries
after any failed attempt, succeeding on any later healthy attempt
within the deadline. -/
theorem C4_probe_classification (service_name service_id : String) (r : HttpResponse) :
    (r.status_code = 503 →
      check_service_once service_name service_id (some r) =
        .error (service_name ++ " unavailable (503)"))
    ∧ (r.status_code ≠ 503 → r.status_code ≠ 200 →
      check_service_once service_name service_id (some r) =
        .error (service_name ++ " returned " ++ toString r.status_code))
    ∧ (∀ obj, r.status_code = 200 → r.body = some obj →
      check_service_once service_name service_id (some r) =
        .ok (jsonGet obj "status" "UNKNOWN"))
    ∧ (∀ (responses : Nat → Option HttpResponse) (k : Nat) (obj : List (String × String)),
        5 * k ≤ 500 →
        (∀ j, j < k →
          exceptOk (check_service_once service_name service_id (responses j)) = false) →
        responses k = some ⟨200, some obj⟩ →
        check_service service_name service_id responses =
          (.ok (jsonGet obj "status" "UNKNOWN"), 5 * k)) := by
  refine ⟨?_, ?_, ?_, ?_⟩
  · intro h
    simp [check_service_once, h]
  · intro h1 h2
    simp only [check_service_once]
    rw [if_neg h1, if_pos h2]
  · intro obj h1 h2
    simp [check_service_once, h1, h2]
  · intro responses k obj hk hprev hrk
    have hattempt : (fun j => check_service_once service_name service_id (responses j)) k =
        .ok (jsonGet obj "status" "UNKNOWN") := by
      show check_service_once service_name service_id (responses k) = _
      rw [hrk]
      simp [check_service_once]
    unfold check_service retryCall
    exact retryRun_first_ok 500 _ k _ hattempt
      (fun j hj => ⟨hprev j hj, by omega⟩) 100 0 (Nat.zero_le k) (by omega)

/-- Witness for C4 amended at concrete inputs. -/
theorem C4_probe_classification_witness :
    check_service_once "User Service" "user-service" (some ⟨503, none⟩) =
      .error ("User Service" ++ " unavailable (503)")
    ∧ check_service_once "User Service" "user-service" (some ⟨404, none⟩) =
      .error ("User Service" ++ " returned " ++ toString (404 : Nat))
    ∧ check_service_once "User Service" "user-service"
        (some ⟨200, some [("status", "UP")]⟩) =
      .ok (jsonGet [("status", "UP")] "status" "UNKNOWN")
    ∧ check_service "User Service" "user-service" witResponses =
      (.ok (jsonGet [("status", "DOWN")] "status" "UNKNOWN"), 5 * 2) :=
  ⟨(C4_probe_classification "User Service" "user-service" ⟨503, none⟩).1 rfl,
   (C4_probe_classification "User Service" "user-service" ⟨404, none⟩).2.1
     (by decide) (by decide),
   (C4_probe_classification "User Service" "user-service"
     ⟨200, some [("status", "UP")]⟩).2.2.1 [("status", "UP")] rfl rfl,
   (C4_probe_classification "User Service" "user-service" ⟨200, none⟩).2.2.2
     witResponses 2 [("status", "DOWN")] (by omega) (fun j hj => by
        interval_cases j <;> rfl) rfl⟩

/-- Claim C5: against an endpoint that never returns a success-class
response, each readiness probe polled at its fixed 5-second interval
terminates with a failure at exactly its configured deadline: time 900
for the config-server probe and time 500 for the gateway, Eureka and
through-gateway service probes; it neither gives up earlier nor keeps
polling beyond the deadline. -/
theorem C5_probe_deadlines (responses : Nat → Option HttpResponse)
    (service_name service_id : String) :
    ((∀ k, exceptOk (raiseForStatus (responses k)) = false) →
      exceptOk (check_config_server responses).1 = false
      ∧ (check_config_server responses).2 = 900
      ∧ exceptOk (check_gateway responses).1 = false
      ∧ (check_gateway responses).2 = 500
      ∧ exceptOk (check_eureka responses).1 = false
      ∧ (check_eureka responses).2 = 500)
    ∧ ((∀ k, exceptOk (check_service_once service_name service_id (responses k)) = false) →
      exceptOk (check_service service_name service_id responses).1 = false
      ∧ (check_service service_name service_id responses).2 = 500) := by
  constructor
  · intro ha
    refine ⟨?_, ?_, ?_, ?_, ?_, ?_⟩
    · exact retryRun_all_error_isOk 900 _ ha (900 / 5 + 1) 0
    · have h := retryRun_all_error_time 900 _ ha 180 0 (by omega)
      norm_num at h
      exact h
    · exact retryRun_all_error_isOk 500 _ ha (500 / 5 + 1) 0
    · have h := retryRun_all_error_time 500 _ ha 100 0 (by omega)
      norm_num at h
      exact h
    · exact retryRun_all_error_isOk 500 _ ha (500 / 5 + 1) 0
    · have h := retryRun_all_error_time 500 _ ha 100 0 (by omega)
      norm_num at h
      exact h
  · intro ha
    refine ⟨?_, ?_⟩
    · exact retryRun_all_error_isOk 500 _ ha (500 / 5 + 1) 0
    · have h := retryRun_all_error_time 500 _ ha 100 0 (by omega)
      norm_num at h
      exact h

/-- Witness for C5 with a permanently unreachable endpoint. -/
theorem C5_probe_deadlines_witness :
    (exceptOk (check_config_server neverUp).1 = false
      ∧ (check_config_server neverUp).2 = 900
      ∧ exceptOk (check_gateway neverUp).1 = false
      ∧ (check_gateway neverUp).2 = 500
      ∧ exceptOk (check_eureka neverUp).1 = false
      ∧ (check_eureka neverUp).2 = 500)
    ∧ (exceptOk (check_service "User Service" "user-service" neverUp).1 = false
      ∧ (check_service "User Service" "user-service" neverUp).2 = 500) :=
  ⟨(C5_probe_deadlines neverUp "User Service" "user-service").1 (fun _ => rfl),
   (C5_probe_deadlines neverUp "User Service" "user-service").2 (fun _ => rfl)⟩

/-- Claim C9: the through-gateway probe succeeds on any 200 response
whose body parses as JSON, with the logged status read from the status
field when present and reported as UNKNOWN when the field is absent;
the presence of the field is not part of the success condition. -/
theorem C9_status_field_optional (service_name service_id : String)
    (obj : List (String × String)) :
    check_service_once service_name service_id (some ⟨200, some obj⟩) =
      .ok (jsonGet obj "status" "UNKNOWN")
    ∧ check_service_once service_name service_id
        (some ⟨200, some [("components", "db")]⟩) = .ok "UNKNOWN" := by
  constructor
  · simp [check_service_once]
  · rfl

/-! ## Claim theorems for the session bring-up -/

/-- Claim C6: the bring-up probes run in the fixed order config server,
Eureka (discovery registry), gateway, then the user, product, order and
moderation services; the trace of probes actually run is always a
prefix of this canonical order, every probe before the last one in the
trace succeeded (so no later probe runs before every earlier probe has
succeeded), no probe is run twice, and when every probe succeeds the
trace is exactly the canonical order with outcome ready. -/
theorem C6_probe_order (env : Env) :
    (pytest_configure env).2 = canonicalProbes.take (pytest_configure env).2.length
    ∧ (∀ q, q ∈ (pytest_configure env).2.dropLast → env.probeOk q = true)
    ∧ (pytest_configure env).2.Nodup
    ∧ ((∀ q, q ∈ canonicalProbes → env.probeOk q = true) →
        pytest_configure env = (.ready, canonicalProbes)) := by
  by_cases hc : env.probeOk .config = true
  · have hpc : (pytest_configure env).2 =
        .config :: (runProbes env.probeOk probesAfterConfig).1 := by
      simp [pytest_configure, hc]
    have htake : (pytest_configure env).2 =
        canonicalProbes.take (pytest_configure env).2.length := by
      rw [hpc]
      simp only [canonicalProbes, List.length_cons, List.take_succ_cons]
      rw [← runProbes_take env.probeOk probesAfterConfig]
    refine ⟨htake, ?_, ?_, ?_⟩
    · intro q hq
      rw [hpc] at hq
      rcases htr : (runProbes env.probeOk probesAfterConfig).1 with _ | ⟨x, xs⟩
      · rw [htr] at hq
        simp at hq
      · rw [htr, List.dropLast_cons₂] at hq
        rcases List.mem_cons.mp hq with he | hin
        · subst he
          exact hc
        · exact runProbes_dropLast env.probeOk probesAfterConfig q (htr ▸ hin)
    · rw [htake]
      exact List.Nodup.sublist (List.take_sublist _ _) (by decide)
    · intro hall
      have h2 := runProbes_all env.probeOk probesAfterConfig
        (fun q hq => hall q (List.mem_cons_of_mem _ hq))
      simp [pytest_configure, hc, h2, canonicalProbes]
  · have hcf : env.probeOk .config = false := by
      revert hc
      cases env.probeOk ProbeEvt.config <;> simp
    have hpc : pytest_configure env = (.raisedError, [.config]) := by
      simp [pytest_configure, hcf]
    rw [hpc]
    refine ⟨rfl, ?_, List.nodup_singleton _, ?_⟩
    · intro q hq
      simp at hq
    · intro hall
      have hx := hall .config (List.mem_cons_self _ _)
      rw [hcf] at hx
      exact Bool.noConfusion hx

/-- Witness for C6 in the all-healthy environment. -/
theorem C6_probe_order_witness :
    pytest_configure envAllOk = (.ready, canonicalProbes)
    ∧ (pytest_configure envAllOk).2.Nodup :=
  ⟨(C6_probe_order envAllOk).2.2.2 (fun _ _ => rfl),
   (C6_probe_order envAllOk).2.2.1⟩

/-- Claim C7 counterexample: in an environment where every
docker-compose bring-up command fails but the probes succeed, the
session does not stop: pytest_configure runs every probe and reports
ready, because every compose invocation passes check=False (or leaves
check at its default False) and its captured result is never inspected.
This contradicts the claim that a failing bring-up command stops the
session immediately with a hard process exit. -/
theorem C7_compose_failure_counterexample :
    (pytest_configure envComposeFail).1 = .ready
    ∧ (pytest_configure envComposeFail).2 = canonicalProbes :=
  ⟨rfl, rfl⟩

/-- Claim C7 amended: the outcome of the bring-up is entirely
independent of whether the docker-compose commands succeed (their
results are ignored), and the session ends ready exactly when every
readiness probe succeeds within its deadline; any probe failure, and
only a probe failure, aborts the session (SystemExit for the probes in
the try block, a propagated error for the config-server probe). -/
theorem C7_bringup_outcome (env : Env) (b1 b2 b3 : Bool) :
    pytest_configure ⟨b1, b2, b3, env.probeOk⟩ = pytest_configure env
    ∧ ((pytest_configure env).1 = .ready ↔
        ∀ q, q ∈ canonicalProbes → env.probeOk q = true) := by
  constructor
  · rfl
  · by_cases hc : env.probeOk .config = true
    · have hpc : pytest_configure env =
          (if (runProbes env.probeOk probesAfterConfig).2 then .ready else .exit1,
           .config :: (runProbes env.probeOk probesAfterConfig).1) := by
        simp [pytest_configure, hc]
      rw [hpc]
      constructor
      · intro h
        by_cases hflag : (runProbes env.probeOk probesAfterConfig).2 = true
        · intro q hq
          rcases List.mem_cons.mp hq with he | hin
          · subst he
            exact hc
          · exact (runProbes_flag env.probeOk probesAfterConfig).mp hflag q hin
        · rw [if_neg hflag] at h
          simp at h
      · intro hall
        have h2 := runProbes_all env.probeOk probesAfterConfig
          (fun q hq => hall q (List.mem_cons_of_mem _ hq))
        rw [h2]
        rfl
    · have hcf : env.probeOk .config = false := by
        revert hc
        cases env.probeOk ProbeEvt.config <;> simp
      have hpc : pytest_configure env = (.raisedError, [.config]) := by
        simp [pytest_configure, hcf]
      rw [hpc]
      constructor
      · intro h
        exact absurd h (by decide)
      · intro hall
        have hx := hall .config (List.mem_cons_self _ _)
        rw [hcf] at hx
        exact Bool.noConfusion hx

/-- Witness for C7 amended: the compose-command flags are irrelevant
and the all-healthy environment ends ready. -/
theorem C7_bringup_outcome_witness :
    pytest_configure ⟨false, false, false, envAllOk.probeOk⟩ = pytest_configure envAllOk
    ∧ (pytest_configure envAllOk).1 = .ready :=
  ⟨(C7_bringup_outcome envAllOk false false false).1,
   ((C7_bringup_outcome envAllOk false false false).2).mpr (fun _ _ => rfl)⟩

end E2EHarness
